import Mathlib

/-!
Shallow embedding of the segment-buffered recording core of
Simon-Weij/wayland-recorder (Go), covering:

* the segment store (`SegmentManager`, `AddSegment`, `cleanupOldSegments`,
  `GetRecentSegments`) from `lib/segments.go` (the `segmentTracker` variant);
* the discovery poller step (`processSegment`);
* clip assembly (`MergeSegments`, `createConcatFile`, `isValidSegment`)
  from `lib/merge.go`;
* the controller cleanup paths (`handleInterrupt`, `handleFinished`) and
  `generateClipPath` from `lib/session.go`;
* the GStreamer argument builder (`BuildGStreamerArgs` and friends) from
  `lib/gstreamer.go`, together with faithful models of the Go standard
  library helpers they use (`path/filepath` `Clean`/`Dir`/`Base`/`Ext`/`Join`,
  `strings.TrimSuffix`, `%03d` formatting).

Wall-clock time (`time.Time` / `time.Duration`) is modelled as `Int`;
file sizes (`int64`) as `Int`; the filesystem as an association list from
paths to sizes.  `os.Remove` / `os.Create` are modelled as succeeding
(deletion errors are swallowed by the Go code); the external `ffmpeg`
invocation is modelled by a boolean oracle saying whether it succeeds.
-/

namespace WaylandRecorder

/-- Filesystem model: the set of existing files with their sizes. -/
abbrev Fs := List (String × Int)

/-- Model of `os.Stat`: the size of the file, or `none` if it does not exist. -/
def fsStat (fs : Fs) (p : String) : Option Int :=
  (fs.find? (fun e => e.1 = p)).map (fun e => e.2)

/-- Model of a successful `os.Remove p`: every entry for `p` disappears. -/
def fsRemove (fs : Fs) (p : String) : Fs :=
  fs.filter (fun e => e.1 ≠ p)

/-- Model of a successful `os.Create p` (truncate/create with size 0). -/
def fsCreate (fs : Fs) (p : String) : Fs :=
  (p, 0) :: fsRemove fs p

/-- Whether a file exists in the modelled filesystem. -/
def fsExists (fs : Fs) (p : String) : Bool :=
  (fsStat fs p).isSome

/-- Constant `minSegmentSize = 1024` from `lib/gstreamer.go`. -/
def minSegmentSize : Int := 1024

/-- `SegmentInfo` from `lib/segments.go` (`Path`, `StartTime`, `Number`). -/
structure SegmentInfo where
  path : String
  startTime : Int
  number : Int
  deriving Repr, DecidableEq

/-- `SegmentManager` from `lib/segments.go`.  The mutex only serialises
access; under the lock every operation acts on this plain state. -/
structure SegmentManager where
  segments : List SegmentInfo
  maxDuration : Int
  tempDir : String
  deriving Repr, DecidableEq

/-- `NewSegmentManager` from `lib/segments.go`. -/
def NewSegmentManager (maxDuration : Int) (tempDir : String) : SegmentManager :=
  { segments := [], maxDuration := maxDuration, tempDir := tempDir }

/-- `cleanupOldSegments` from `lib/segments.go`: filters the stored list
into kept (StartTime after `now - maxDuration`) and expired segments,
deleting each expired segment's file.  The Go loop appends kept segments
in order and calls `os.Remove` on the rest; it is embedded as the very
same left fold over the stored list. -/
def cleanupOldSegments (now : Int) (sm : SegmentManager) (fs : Fs) :
    SegmentManager × Fs :=
  let cutoffTime := now - sm.maxDuration
  let step := fun (acc : List SegmentInfo × Fs) (seg : SegmentInfo) =>
    if cutoffTime < seg.startTime then (acc.1 ++ [seg], acc.2)
    else (acc.1, fsRemove acc.2 seg.path)
  let res := sm.segments.foldl step ([], fs)
  ({ sm with segments := res.1 }, res.2)

/-- `AddSegment` from `lib/segments.go`: appends a segment stamped with
the current time, then runs the eviction sweep.  Both `time.Now()` calls
inside the (microsecond-scale) critical section are modelled as the same
instant `now`. -/
def AddSegment (now : Int) (sm : SegmentManager) (fs : Fs)
    (path : String) (number : Int) : SegmentManager × Fs :=
  let segment : SegmentInfo := { path := path, startTime := now, number := number }
  cleanupOldSegments now { sm with segments := sm.segments ++ [segment] } fs

/-- `GetRecentSegments` from `lib/segments.go`: collects, in stored order,
the segments with `StartTime.After(now - duration)`. -/
def GetRecentSegments (now : Int) (sm : SegmentManager) (duration : Int) :
    List SegmentInfo :=
  let cutoffTime := now - duration
  sm.segments.foldl
    (fun recent seg => if cutoffTime < seg.startTime then recent ++ [seg] else recent)
    []

/-- Observation of a `GetRecentSegments` method call: the returned list
together with the store state after the call.  The Go method takes the
lock, builds the result and never assigns to `sm.segments`, so the
post-state is the receiver unchanged. -/
def GetRecentSegmentsCall (now : Int) (sm : SegmentManager) (duration : Int) :
    List SegmentInfo × SegmentManager :=
  (GetRecentSegments now sm duration, sm)

/-- A sequence of `AddSegment` calls: each entry is `(now, path, number)`. -/
def runAdds (sm : SegmentManager) (fs : Fs) (calls : List (Int × String × Int)) :
    SegmentManager × Fs :=
  calls.foldl (fun acc c => AddSegment c.1 acc.1 acc.2 c.2.1 c.2.2) (sm, fs)

/-- `segmentTracker` from `lib/segments.go`: the per-file state of the
discovery poller.  The Go maps `seen : map[string]bool` and
`fileSize : map[string]int64` are embedded as a list of seen paths and an
association list of transient size records. -/
structure segmentTracker where
  seen : List String
  fileSize : List (String × Int)
  nextNumber : Int
  deriving Repr, DecidableEq

/-- `newSegmentTracker` from `lib/segments.go`. -/
def newSegmentTracker : segmentTracker :=
  { seen := [], fileSize := [], nextNumber := 0 }

/-- Lookup in the transient size map (`prevSize, exists := st.fileSize[path]`). -/
def sizeLookup (m : List (String × Int)) (p : String) : Option Int :=
  (m.find? (fun e => e.1 = p)).map (fun e => e.2)

/-- Update of the transient size map (`st.fileSize[path] = size`). -/
def sizeSet (m : List (String × Int)) (p : String) (v : Int) : List (String × Int) :=
  (p, v) :: m.filter (fun e => e.1 ≠ p)

/-- Deletion from the transient size map (`delete(st.fileSize, path)`). -/
def sizeDelete (m : List (String × Int)) (p : String) : List (String × Int) :=
  m.filter (fun e => e.1 ≠ p)

/-- `processSegment` from `lib/segments.go`: one poll step for one
candidate file.  Returns whether the file was registered, together with
the updated tracker, store and filesystem.  Registration happens exactly
on the source condition `exists && prevSize == info.Size() &&
info.Size() > minSegmentSize`. -/
def processSegment (now : Int) (st : segmentTracker) (sm : SegmentManager)
    (fs : Fs) (path : String) : Bool × segmentTracker × SegmentManager × Fs :=
  if st.seen.contains path then (false, st, sm, fs)
  else
    match fsStat fs path with
    | none => (false, st, sm, fs)
    | some size =>
      if sizeLookup st.fileSize path = some size ∧ minSegmentSize < size then
        let r := AddSegment now sm fs path st.nextNumber
        (true,
         { st with
             seen := path :: st.seen,
             fileSize := sizeDelete st.fileSize path,
             nextNumber := st.nextNumber + 1 },
         r.1, r.2)
      else
        (false, { st with fileSize := sizeSet st.fileSize path size }, sm, fs)

/-! ### Model of the Go `path/filepath` helpers (unix rules, no volume names) -/

/-- Splitting a character list at `'/'` separators (the components of a
path, empty components included). -/
def splitSlash : List Char → List (List Char)
  | [] => [[]]
  | c :: rest =>
    if c = '/' then [] :: splitSlash rest
    else
      match splitSlash rest with
      | [] => [[c]]
      | h :: t => (c :: h) :: t

/-- One step of `filepath.Clean`'s component resolution: skip empty and
`"."` components, let `".."` pop the previous component (or accumulate at
the front of a relative path, or vanish at the root), push anything else.
The accumulator is the output component stack, most recent first. -/
def cleanPush (rooted : Bool) (acc : List (List Char)) (c : List Char) :
    List (List Char) :=
  if c = [] ∨ c = ['.'] then acc
  else if c = ['.', '.'] then
    match acc with
    | [] => if rooted then [] else [['.', '.']]
    | a :: rest => if a = ['.', '.'] then c :: acc else rest
  else c :: acc

/-- Component resolution over a whole component list. -/
def cleanComps (rooted : Bool) (comps : List (List Char)) : List (List Char) :=
  comps.foldl (cleanPush rooted) []

/-- Model of Go `filepath.Clean` (unix): shortest lexical equivalent of
the path — collapse separators, drop `"."`, resolve `".."`, return `"."`
for an empty result. -/
def filepathClean (path : String) : String :=
  if path = "" then "."
  else
    let cs := path.data
    let rooted := cs.head? = some '/'
    let comps := (cleanComps rooted (splitSlash cs)).reverse
    let body := String.mk (List.intercalate ['/'] comps)
    if rooted then "/" ++ body
    else if body = "" then "." else body

/-- Scan used by `filepath.Ext`: walk the reversed character list,
collecting until the last `'.'` of the final path element (stop empty at
a separator). -/
def extRevScan (acc : List Char) : List Char → List Char
  | [] => []
  | c :: rest =>
    if c = '/' then []
    else if c = '.' then c :: acc
    else extRevScan (c :: acc) rest

/-- Model of Go `filepath.Ext`: the suffix starting at the final dot of
the last path element, or `""`. -/
def filepathExt (path : String) : String :=
  String.mk (extRevScan [] path.data.reverse)

/-- Model of Go `filepath.Base`: the last element of the path after
dropping trailing separators; `"."` for the empty path, `"/"` for a path
of only separators. -/
def filepathBase (path : String) : String :=
  if path = "" then "."
  else
    let stripped := path.data.reverse.dropWhile (fun c => c = '/')
    let lastComp := stripped.takeWhile (fun c => c ≠ '/')
    if lastComp = [] then "/" else String.mk lastComp.reverse

/-- Model of Go `filepath.Dir`: everything up to the final separator,
cleaned. -/
def filepathDir (path : String) : String :=
  filepathClean (String.mk (path.data.reverse.dropWhile (fun c => c ≠ '/')).reverse)

/-- Model of Go `filepath.Join` for two elements: the first non-empty
element onwards, joined with `"/"` and cleaned; `""` if both are empty. -/
def filepathJoin (a b : String) : String :=
  if a ≠ "" then filepathClean (a ++ "/" ++ b)
  else if b ≠ "" then filepathClean b
  else ""

/-- Model of Go `strings.TrimSuffix`. -/
def trimSuffixGo (s t : String) : String :=
  if t.data.isSuffixOf s.data then
    String.mk (s.data.take (s.data.length - t.data.length))
  else s

/-- Model of `fmt.Sprintf("%03d", n)` for a non-negative counter. -/
def fmtPad3 (n : Nat) : String :=
  let s := toString n
  if s.length < 3 then String.mk (List.replicate (3 - s.length) '0') ++ s else s

/-- Model of Go `strings.Fields` for the single-space-separated literals
appearing in this code base. -/
def fieldsGo (s : String) : List String :=
  (s.splitOn " ").filter (fun x => x ≠ "")

/-! ### Clip assembler (`lib/merge.go`) -/

/-- `isValidSegment` from `lib/merge.go`: the file exists and its size is
at least `minSegmentSize`. -/
def isValidSegment (fs : Fs) (path : String) : Bool :=
  match fsStat fs path with
  | none => false
  | some size => minSegmentSize ≤ size

/-- The manifest path computed on line 36 of `lib/merge.go`:
`filepath.Join(filepath.Dir(segments[0].Path), "concat_list.txt")`
(`""` stands for the out-of-range access on an empty list, which the
caller's length guard makes unreachable). -/
def concatFilePathOf (segments : List SegmentInfo) : String :=
  match segments with
  | [] => ""
  | s0 :: _ => filepathJoin (filepathDir s0.path) "concat_list.txt"

/-- A manifest line as written by `fmt.Fprintf`: the word `file`, a
space, and the segment path wrapped in single quotes (the trailing
newline terminates every line and is omitted from the model). -/
def manifestLine (path : String) : String :=
  "file " ++ "\x27" ++ path ++ "\x27"

/-- `createConcatFile` from `lib/merge.go`: create the manifest file,
write one line per valid segment (counting them), and fail with
`"no valid segments found"` when no line was written.  On that failure
the created file is not removed.  Returns the result (`Except` models
the `(string, error)` pair), the written lines, and the filesystem after
the call.  `os.Create` is modelled as succeeding. -/
def createConcatFile (segments : List SegmentInfo) (fs : Fs) :
    Except String String × List String × Fs :=
  match segments with
  | [] => (Except.error "index out of range", [], fs)
  | s0 :: _ =>
    let concatFile := filepathJoin (filepathDir s0.path) "concat_list.txt"
    let fs1 := fsCreate fs concatFile
    let written := segments.foldl
      (fun (acc : List String × Nat) seg =>
        if isValidSegment fs1 seg.path then (acc.1 ++ [manifestLine seg.path], acc.2 + 1)
        else acc)
      ([], 0)
    if written.2 = 0 then (Except.error "no valid segments found", written.1, fs1)
    else (Except.ok concatFile, written.1, fs1)

/-- Decidable equality for `Except`, used to evaluate outcome records on
concrete inputs. -/
instance exceptDecEq {ε α : Type} [DecidableEq ε] [DecidableEq α] :
    DecidableEq (Except ε α) := fun a b =>
  match a, b with
  | Except.error e, Except.error e' =>
    if h : e = e' then isTrue (by rw [h]) else isFalse (by intro hc; cases hc; exact h rfl)
  | Except.error _, Except.ok _ => isFalse (by intro hc; cases hc)
  | Except.ok _, Except.error _ => isFalse (by intro hc; cases hc)
  | Except.ok v, Except.ok v' =>
    if h : v = v' then isTrue (by rw [h]) else isFalse (by intro hc; cases hc; exact h rfl)

/-- Outcome record for a `MergeSegments` call: the returned error status,
the manifest lines written, the filesystem after the call returns, and
whether the external `ffmpeg` concatenation was invoked. -/
structure MergeOutcome where
  result : Except String Unit
  manifest : List String
  fsAfter : Fs
  ffmpegRan : Bool
  deriving Repr, DecidableEq

/-- `MergeSegments` from `lib/merge.go`: fail on an empty list; build the
manifest; on a manifest error return it at once (the `defer
os.Remove(concatFilePath)` is registered only after this point); then run
ffmpeg (its success given by the oracle `ffmpegOk`, writing `outputPath`
on success) and remove the manifest file on the way out, on success and
on ffmpeg failure alike. -/
def MergeSegments (segments : List SegmentInfo) (outputPath : String)
    (fs : Fs) (ffmpegOk : Bool) : MergeOutcome :=
  if segments.length = 0 then
    { result := Except.error "no segments to merge", manifest := [],
      fsAfter := fs, ffmpegRan := false }
  else
    match createConcatFile segments fs with
    | (Except.error e, written, fs1) =>
      { result := Except.error e, manifest := written, fsAfter := fs1,
        ffmpegRan := false }
    | (Except.ok concatFilePath, written, fs1) =>
      if ffmpegOk then
        { result := Except.ok (), manifest := written,
          fsAfter := fsRemove (fsCreate fs1 outputPath) concatFilePath,
          ffmpegRan := true }
      else
        { result := Except.error "failed to merge segments", manifest := written,
          fsAfter := fsRemove fs1 concatFilePath, ffmpegRan := true }

/-! ### Recording controller (`lib/session.go`) -/

/-- `CaptureOptions` from `lib/gstreamer.go`. -/
structure CaptureOptions where
  OutputPath : String
  Codec : String
  Container : String
  EncoderSpeed : Int
  Quality : Int
  AudioMonitor : Bool
  AudioMic : Bool
  BufferDuration : Int
  SegmentDuration : Int
  ClipMode : Bool
  TempDir : String
  Notifications : Bool
  deriving Repr, DecidableEq

/-- The on-disk state touched by the controller's cleanup paths: whether
the temp segment directory and the auxiliary pid tracking file exist. -/
structure CleanupState where
  tempDirExists : Bool
  pidFileExists : Bool
  deriving Repr, DecidableEq

/-- `cleanupTempFiles` from `lib/session.go`: `os.RemoveAll(tempDir)`. -/
def cleanupTempFiles (s : CleanupState) : CleanupState :=
  { s with tempDirExists := false }

/-- `cleanupPidFile` from `lib/session.go`: `os.Remove(pid file)`. -/
def cleanupPidFile (s : CleanupState) : CleanupState :=
  { s with pidFileExists := false }

/-- `handleInterrupt` from `lib/session.go` (user-initiated shutdown):
fail early when the process handle is nil or the interrupt signal cannot
be sent; otherwise wait for the encoder, then in clip mode delete the
temp directory and the pid file.  `procStarted` / `signalOk` model the
two external failure conditions. -/
def handleInterrupt (procStarted signalOk : Bool) (opts : CaptureOptions)
    (s : CleanupState) : Except String Unit × CleanupState :=
  if !procStarted then (Except.error "process not started", s)
  else if !signalOk then (Except.error "failed to send interrupt signal", s)
  else
    let s' :=
      if opts.ClipMode ∧ opts.TempDir ≠ "" then cleanupPidFile (cleanupTempFiles s)
      else s
    (Except.ok (), s')

/-- `handleFinished` from `lib/session.go` (encoder exited on its own):
a non-zero exit (`err = some e`) is returned at once with no cleanup; a
zero exit removes only the pid file. -/
def handleFinished (err : Option String) (s : CleanupState) :
    Except String Unit × CleanupState :=
  match err with
  | some e => (Except.error e, s)
  | none => (Except.ok (), cleanupPidFile s)

/-- `generateClipPath` from `lib/session.go`:
`filepath.Join(dir, fmt.Sprintf("...-clip-...", base, counter, container))`
with `dir`/`base` taken from the configured base output path. -/
def generateClipPath (basePath container : String) (counter : Nat) : String :=
  let dir := filepathDir basePath
  let base := trimSuffixGo (filepathBase basePath) (filepathExt basePath)
  filepathJoin dir (base ++ "-clip-" ++ fmtPad3 counter ++ "." ++ container)

/-! ### GStreamer argument builder (`lib/gstreamer.go`) -/

/-- `muxerConfig` from `lib/gstreamer.go`. -/
structure muxerConfig where
  name : String
  streamableParams : String
  deriving Repr, DecidableEq

/-- `getMuxerConfig` from `lib/gstreamer.go`: the `muxerConfigs` map
lookup with its unsupported-container error. -/
def getMuxerConfig (container : String) : Except String muxerConfig :=
  if container = "webm" then Except.ok ⟨"webmmux", "streamable=true"⟩
  else if container = "mp4" then
    Except.ok ⟨"mp4mux", "fragment-duration=1000 streamable=true faststart=true"⟩
  else if container = "mkv" then Except.ok ⟨"matroskamux", "streamable=true"⟩
  else Except.error ("unsupported container: " ++ container ++ " (use: webm, mp4, or mkv)")

/-- `buildMuxerArgs` from `lib/gstreamer.go`. -/
def buildMuxerArgs (container : String) : Except String (List String) :=
  match getMuxerConfig container with
  | Except.error e => Except.error e
  | Except.ok config =>
    let args := ["!", config.name]
    let args := if config.streamableParams ≠ "" then args ++ fieldsGo config.streamableParams else args
    Except.ok (args ++ ["name=mux"])

/-- `buildEncoderArgs` from `lib/gstreamer.go`: codec switch with the
quality checks; integer division as in Go (operands are positive here). -/
def buildEncoderArgs (codec : String) (encoderSpeed quality : Int) :
    Except String (List String) :=
  if codec = "vp8" then
    Except.ok (if 0 < quality then
      ["!", "vp8enc", "deadline=" ++ toString encoderSpeed]
        ++ ["target-bitrate=" ++ toString quality]
      else ["!", "vp8enc", "deadline=" ++ toString encoderSpeed])
  else if codec = "vp9" then
    Except.ok (if 0 < quality then
      ["!", "vp9enc", "deadline=" ++ toString encoderSpeed]
        ++ ["target-bitrate=" ++ toString quality]
      else ["!", "vp9enc", "deadline=" ++ toString encoderSpeed])
  else if codec = "h264" ∨ codec = "x264" then
    if 0 < quality then
      if quality < 1000 then Except.error "quality for h264/x264 must be >= 1000 bps"
      else Except.ok (["!", "x264enc", "speed-preset=" ++ toString encoderSpeed]
        ++ ["bitrate=" ++ toString (quality / 1000)])
    else Except.ok ["!", "x264enc", "speed-preset=" ++ toString encoderSpeed]
  else Except.error ("unsupported codec: " ++ codec ++ " (use: vp8, vp9, h264, or x264)")

/-- `buildAudioPipeline` from `lib/gstreamer.go`: `nil` in clip mode or
with both audio flags off; otherwise the mixer pipeline (both flags) or a
single `pulsesrc` pipeline for the selected device. -/
def buildAudioPipeline (opts : CaptureOptions) : List String :=
  if opts.ClipMode ∨ (!opts.AudioMonitor ∧ !opts.AudioMic) then []
  else if opts.AudioMonitor ∧ opts.AudioMic then
    ["audiomixer", "name=mix",
     "pulsesrc", "device=@DEFAULT_MONITOR@", "!", "queue", "!", "audioconvert", "!", "mix.",
     "pulsesrc", "device=@DEFAULT_SOURCE@", "!", "queue", "!", "audioconvert", "!", "mix.",
     "mix.", "!", "audioresample", "!", "opusenc"]
  else
    let device := if opts.AudioMic then "@DEFAULT_SOURCE@" else "@DEFAULT_MONITOR@"
    ["pulsesrc", "device=" ++ device,
     "!", "queue", "!", "audioconvert", "!", "audioresample", "!", "opusenc"]

/-- `appendOutputSink` from `lib/gstreamer.go`: link from the optional
named element, then either the clip-mode `splitmuxsink` writing numbered
segment files into the temp directory (falling back to a plain `filesink`
for an unknown container) or the normal-mode `filesink`. -/
def appendOutputSink (args : List String) (opts : CaptureOptions) (pre : String) :
    List String :=
  let args := if pre ≠ "" then args ++ [pre, "!"] else args ++ ["!"]
  if opts.ClipMode then
    match getMuxerConfig opts.Container with
    | Except.error _ => args ++ ["filesink", "location=" ++ opts.OutputPath]
    | Except.ok config =>
      let segmentPattern := filepathJoin opts.TempDir ("segment_%05d." ++ opts.Container)
      let maxSizeTime := opts.SegmentDuration * 1000000000
      args ++ ["splitmuxsink", "muxer=" ++ config.name,
               "location=" ++ segmentPattern,
               "max-size-time=" ++ toString maxSizeTime]
  else args ++ ["filesink", "location=" ++ opts.OutputPath]

/-- `appendAudioAndOutput` from `lib/gstreamer.go`. -/
def appendAudioAndOutput (args : List String) (opts : CaptureOptions) : List String :=
  let audioPipeline := buildAudioPipeline opts
  if audioPipeline.length = 0 then appendOutputSink args opts ""
  else if opts.ClipMode then appendOutputSink (args ++ audioPipeline) opts ""
  else
    match buildMuxerArgs opts.Container with
    | Except.error _ => appendOutputSink args opts ""
    | Except.ok muxerArgs =>
      appendOutputSink (args ++ muxerArgs ++ audioPipeline ++ ["!", "mux."]) opts "mux."

/-- `BuildGStreamerArgs` from `lib/gstreamer.go`: reject node ID 0, then
the video source and conversion elements, the encoder elements, and the
audio/output tail. -/
def BuildGStreamerArgs (nodeID : Nat) (opts : CaptureOptions) :
    Except String (List String) :=
  if nodeID = 0 then Except.error "invalid node ID: 0"
  else
    let args := ["-e"] ++
      ["pipewiresrc", "path=" ++ toString nodeID, "!", "videoconvert", "!", "queue"]
    match buildEncoderArgs opts.Codec opts.EncoderSpeed opts.Quality with
    | Except.error e => Except.error ("encoder configuration error: " ++ e)
    | Except.ok encoderArgs => Except.ok (appendAudioAndOutput (args ++ encoderArgs) opts)

/-- The audio-specific pipeline tokens: every element string that
`buildAudioPipeline` can emit, other than the generic `"!"` and
`"queue"` links that the video pipeline also uses. -/
def audioPipelineTokens : List String :=
  ["audiomixer", "name=mix", "pulsesrc", "device=@DEFAULT_MONITOR@",
   "device=@DEFAULT_SOURCE@", "audioconvert", "mix.", "audioresample", "opusenc"]

/-- Verification helper: the character prefix that `filepathClean`
contributes in front of a final slash-free path element appended after
`dir ++ "/"` — the root slash, the cleaned directory components, and the
separator before the last element. -/
def cleanDirPrefix (d : String) : List Char :=
  let rooted := d.data.head? = some '/'
  let comps := (cleanComps rooted (splitSlash d.data)).reverse
  (if rooted then ['/'] else []) ++
    (if comps = [] then [] else List.intercalate ['/'] comps ++ ['/'])

/-! ## Helper lemmas -/

theorem foldl_push_filter (c : Int) (l : List SegmentInfo)
    (acc : List SegmentInfo) :
    l.foldl (fun acc seg => if c < seg.startTime then acc ++ [seg] else acc) acc
      = acc ++ l.filter (fun seg => c < seg.startTime) := by
  induction l generalizing acc with
  | nil => simp
  | cons a t ih => by_cases h : c < a.startTime <;> simp [h, ih, List.filter_cons]

theorem foldl_keep_remove (c : Int) (l : List SegmentInfo)
    (acc : List SegmentInfo) (fs : Fs) :
    l.foldl
      (fun acc seg => if c < seg.startTime then (acc.1 ++ [seg], acc.2)
        else (acc.1, fsRemove acc.2 seg.path))
      (acc, fs)
      = (acc ++ l.filter (fun seg => c < seg.startTime),
         (l.filter (fun seg => ¬ (c < seg.startTime))).foldl
           (fun fs seg => fsRemove fs seg.path) fs) := by
  induction l generalizing acc fs with
  | nil => simp
  | cons a t ih =>
    by_cases h : c < a.startTime
    · simp [h, ih, List.filter_cons]
    · simp [h, ih, List.filter_cons, not_lt.mp h]

theorem cleanupOldSegments_eq (now : Int) (sm : SegmentManager) (fs : Fs) :
    cleanupOldSegments now sm fs
      = ({ sm with segments :=
             sm.segments.filter (fun seg => now - sm.maxDuration < seg.startTime) },
         (sm.segments.filter (fun seg => ¬ (now - sm.maxDuration < seg.startTime))).foldl
           (fun fs seg => fsRemove fs seg.path) fs) := by
  simp only [cleanupOldSegments, foldl_keep_remove, List.nil_append]

theorem fsStat_remove (fs : Fs) (q p : String) :
    fsStat (fsRemove fs q) p = if p = q then none else fsStat fs p := by
  induction fs with
  | nil => simp [fsRemove, fsStat]
  | cons e t ih =>
    by_cases h1 : e.1 = q <;> by_cases h2 : e.1 = p <;>
      simp [fsRemove, fsStat, List.filter_cons, List.find?_cons, h1, h2] at ih ⊢ <;>
      simp_all [fsRemove, fsStat]

theorem fsExists_remove (fs : Fs) (q p : String) :
    fsExists (fsRemove fs q) p = if p = q then false else fsExists fs p := by
  by_cases h : p = q <;> simp [fsExists, fsStat_remove, h]

theorem fsExists_foldl_remove_pres (l : List SegmentInfo) (fs : Fs) (p : String)
    (h0 : fsExists fs p = false) :
    fsExists (l.foldl (fun fs seg => fsRemove fs seg.path) fs) p = false := by
  induction l generalizing fs with
  | nil => simpa using h0
  | cons a t ih =>
    simp only [List.foldl_cons]
    apply ih
    rw [fsExists_remove]
    split <;> simp [h0]

theorem fsExists_foldl_remove_of_mem (l : List SegmentInfo) (fs : Fs) (p : String)
    (h : p ∈ l.map (fun seg => seg.path)) :
    fsExists (l.foldl (fun fs seg => fsRemove fs seg.path) fs) p = false := by
  induction l generalizing fs with
  | nil => simp at h
  | cons a t ih =>
    simp only [List.foldl_cons]
    by_cases hm : p ∈ t.map (fun seg => seg.path)
    · exact ih _ hm
    · have hpa : p = a.path := by
        simp only [List.map_cons, List.mem_cons] at h
        tauto
      apply fsExists_foldl_remove_pres
      rw [hpa, fsExists_remove]
      simp

/-! ## Claim theorems -/

/-- C1: after any sequence of `add` calls, `recentSegments(d)` at time
`now` returns exactly the stored segments with `startTime > now - d`, in
original insertion order — it equals the in-order filter of the stored
list. -/
theorem c1_recent_segments_exact_filter (init : SegmentManager) (fs0 : Fs)
    (calls : List (Int × String × Int)) (now d : Int) :
    GetRecentSegments now (runAdds init fs0 calls).1 d
      = (runAdds init fs0 calls).1.segments.filter
          (fun seg => now - d < seg.startTime) := by
  simp only [GetRecentSegments, foldl_push_filter, List.nil_append]

/-- C2: an `add` call at time `now` leaves no stored segment of age
greater than the retention window, and every segment its sweep evicted
has had its file deleted, so the file no longer exists. -/
theorem c2_add_eviction_invariant (now : Int) (sm : SegmentManager) (fs : Fs)
    (path : String) (number : Int) :
    (∀ seg ∈ ((AddSegment now sm fs path number).1).segments,
        ¬ (now - seg.startTime > sm.maxDuration)) ∧
    (∀ seg ∈ sm.segments ++ [{ path := path, startTime := now, number := number }],
        seg ∉ ((AddSegment now sm fs path number).1).segments →
        fsExists ((AddSegment now sm fs path number).2) seg.path = false) := by
  rw [AddSegment, cleanupOldSegments_eq]
  constructor
  · intro seg hseg
    have := (List.mem_filter.mp hseg).2
    simp only [decide_eq_true_eq] at this
    omega
  · intro seg hseg hnot
    have hp : ¬ (now - sm.maxDuration < seg.startTime) := by
      intro hlt
      exact hnot (List.mem_filter.mpr ⟨hseg, by simpa using hlt⟩)
    apply fsExists_foldl_remove_of_mem
    exact List.mem_map.mpr ⟨seg, List.mem_filter.mpr ⟨hseg, by simpa using hp⟩, rfl⟩

/-- C2 witness: with retention window 35, adding at time 100 evicts the
segment stamped 0 and deletes its file, and the surviving segment is
within the window. -/
theorem c2_add_eviction_invariant_witness :
    ¬ ((100 : Int) - 100 > (35 : Int)) ∧
    fsExists ((AddSegment 100
        { segments := [{ path := "/tmp/a", startTime := 0, number := 0 }],
          maxDuration := 35, tempDir := "/tmp" }
        [("/tmp/a", 2000)] "/tmp/b" 1).2) "/tmp/a" = false :=
  ⟨(c2_add_eviction_invariant 100
      { segments := [{ path := "/tmp/a", startTime := 0, number := 0 }],
        maxDuration := 35, tempDir := "/tmp" }
      [("/tmp/a", 2000)] "/tmp/b" 1).1
      { path := "/tmp/b", startTime := 100, number := 1 } (by decide),
   (c2_add_eviction_invariant 100
      { segments := [{ path := "/tmp/a", startTime := 0, number := 0 }],
        maxDuration := 35, tempDir := "/tmp" }
      [("/tmp/a", 2000)] "/tmp/b" 1).2
      { path := "/tmp/a", startTime := 0, number := 0 } (by decide) (by decide)⟩

/-- C9: `recentSegments` is a pure read — the store is unchanged by the
call — and a repeated call with the same duration and no intervening
`add` returns the same result. -/
theorem c9_recent_segments_pure_idempotent (now : Int) (sm : SegmentManager)
    (d : Int) :
    (GetRecentSegmentsCall now sm d).2 = sm ∧
    (GetRecentSegmentsCall now (GetRecentSegmentsCall now sm d).2 d).1
      = (GetRecentSegmentsCall now sm d).1 :=
  ⟨rfl, rfl⟩

/-- C3 counterexample: a tracked file observed twice with the unchanged
size 1024 — exactly the minimum threshold, so meeting it — is NOT
registered by `processSegment`, contradicting the claim that meeting the
threshold suffices. -/
theorem c3_counterexample :
    (processSegment 7 { seen := [], fileSize := [("f", 1024)], nextNumber := 0 }
        (NewSegmentManager 35 "/tmp/wr") [("f", 1024)] "f").1 = false ∧
    sizeLookup [("f", 1024)] "f" = some 1024 ∧
    fsStat [("f", 1024)] "f" = some 1024 ∧
    minSegmentSize ≤ 1024 := by
  decide

/-- C3 (amended): `processSegment` registers a file exactly when it is
not yet seen, a stat succeeds, a previous size observation exists and
equals the current size, and the size STRICTLY exceeds the minimum
threshold; and whenever it does not register, the store is untouched (so
a file observed once, or whose size changes on every poll, is never
registered). -/
theorem c3_registration_iff (now : Int) (st : segmentTracker)
    (sm : SegmentManager) (fs : Fs) (path : String) :
    ((processSegment now st sm fs path).1 = true ↔
      (st.seen.contains path = false ∧
       ∃ size, fsStat fs path = some size ∧
         sizeLookup st.fileSize path = some size ∧ minSegmentSize < size)) ∧
    ((processSegment now st sm fs path).1 = false →
      (processSegment now st sm fs path).2.2.1 = sm) := by
  unfold processSegment
  split
  · rename_i hseen
    simp [hseen]
    intro hns
    exact absurd (by simpa using hseen) hns
  · rename_i hseen
    split
    · rename_i hstat
      simp [hseen, hstat]
    · rename_i size hstat
      split
      · rename_i hcond
        simp only [Bool.not_eq_true] at hseen
        simp [hseen, hstat]
        exact ⟨by simpa using hseen, hcond.1, hcond.2⟩
      · rename_i hcond
        simp only [Bool.not_eq_true] at hseen
        simp [hseen, hstat]
        intro hns hlook
        by_contra hlt
        exact hcond ⟨hlook, not_le.mp hlt⟩

/-- C3 witness: a stable 2048-byte file is registered; the 1024-byte
file is not registered and leaves the store unchanged. -/
theorem c3_registration_iff_witness :
    (processSegment 7 { seen := [], fileSize := [("g", 2048)], nextNumber := 0 }
        (NewSegmentManager 35 "/tmp/wr") [("g", 2048)] "g").1 = true ∧
    (processSegment 7 { seen := [], fileSize := [("f", 1024)], nextNumber := 0 }
        (NewSegmentManager 35 "/tmp/wr") [("f", 1024)] "f").2.2.1
      = NewSegmentManager 35 "/tmp/wr" :=
  ⟨(c3_registration_iff 7 { seen := [], fileSize := [("g", 2048)], nextNumber := 0 }
      (NewSegmentManager 35 "/tmp/wr") [("g", 2048)] "g").1.mpr (by decide),
   (c3_registration_iff 7 { seen := [], fileSize := [("f", 1024)], nextNumber := 0 }
      (NewSegmentManager 35 "/tmp/wr") [("f", 1024)] "f").2 (by decide)⟩

/-- C4 counterexample: with clip mode active, a subprocess self-exit
with zero status leaves the temp segment directory in place (only the
pid file is removed), and a non-zero exit performs no cleanup at all —
while the user-initiated shutdown path does delete the temp directory.
The claim that both behave the same is therefore false. -/
theorem c4_counterexample :
    (handleFinished none { tempDirExists := true, pidFileExists := true }).2.tempDirExists
      = true ∧
    (handleFinished (some "exit status 1")
        { tempDirExists := true, pidFileExists := true }).2
      = { tempDirExists := true, pidFileExists := true } ∧
    (handleInterrupt true true
        { OutputPath := "/home/u/rec.webm", Codec := "vp9", Container := "webm",
          EncoderSpeed := 1, Quality := 0, AudioMonitor := false, AudioMic := false,
          BufferDuration := 30, SegmentDuration := 5, ClipMode := true,
          TempDir := "/tmp/wr", Notifications := true }
        { tempDirExists := true, pidFileExists := true }).2.tempDirExists = false := by
  decide

/-- C4 (amended): when the encoder subprocess exits on its own, a zero
exit removes only the auxiliary pid tracking file and leaves the temp
segment directory untouched, and a non-zero exit is returned as the error
with no cleanup performed at all. -/
theorem c4_finished_cleanup (s : CleanupState) :
    (handleFinished none s).1 = Except.ok () ∧
    (handleFinished none s).2 = { s with pidFileExists := false } ∧
    (∀ e : String, (handleFinished (some e) s).1 = Except.error e ∧
      (handleFinished (some e) s).2 = s) :=
  ⟨rfl, rfl, fun _ => ⟨rfl, rfl⟩⟩

theorem foldl_manifest (fs1 : Fs) (l : List SegmentInfo) (acc : List String)
    (n : Nat) :
    l.foldl
      (fun (acc : List String × Nat) seg =>
        if isValidSegment fs1 seg.path then (acc.1 ++ [manifestLine seg.path], acc.2 + 1)
        else acc)
      (acc, n)
      = (acc ++ (l.filter (fun seg => isValidSegment fs1 seg.path)).map
           (fun seg => manifestLine seg.path),
         n + (l.filter (fun seg => isValidSegment fs1 seg.path)).length) := by
  induction l generalizing acc n with
  | nil => simp
  | cons a t ih =>
    by_cases h : isValidSegment fs1 a.path = true
    · simp [h, ih, List.filter_cons]
      omega
    · simp [h, ih, List.filter_cons]

theorem createConcatFile_eq (s0 : SegmentInfo) (rest : List SegmentInfo) (fs : Fs) :
    createConcatFile (s0 :: rest) fs
      = ((if ((s0 :: rest).filter (fun seg =>
              isValidSegment (fsCreate fs (concatFilePathOf (s0 :: rest))) seg.path)) = []
          then Except.error "no valid segments found"
          else Except.ok (concatFilePathOf (s0 :: rest))),
         ((s0 :: rest).filter (fun seg =>
             isValidSegment (fsCreate fs (concatFilePathOf (s0 :: rest))) seg.path)).map
           (fun seg => manifestLine seg.path),
         fsCreate fs (concatFilePathOf (s0 :: rest))) := by
  simp only [createConcatFile, concatFilePathOf, foldl_manifest, Nat.zero_add,
    List.nil_append, List.length_eq_zero]
  split <;> rfl

theorem fsStat_create_self (fs : Fs) (q : String) :
    fsStat (fsCreate fs q) q = some 0 := by
  simp [fsCreate, fsStat, List.find?_cons]

theorem fsStat_create_ne (fs : Fs) (q p : String) (h : p ≠ q) :
    fsStat (fsCreate fs q) p = fsStat fs p := by
  have h2 := fsStat_remove fs q p
  rw [if_neg h] at h2
  simp only [fsCreate, fsStat] at h2 ⊢
  rw [List.find?_cons_of_neg]
  · exact h2
  · simp
    exact fun he => h he.symm

theorem isValidSegment_create_ne (fs : Fs) (q p : String) (h : p ≠ q) :
    isValidSegment (fsCreate fs q) p = isValidSegment fs p := by
  simp [isValidSegment, fsStat_create_ne fs q p h]

/-- C5: during clip assembly every snapshotted segment whose file is
gone or smaller than the minimum threshold is silently excluded — the
manifest is exactly the in-order valid sublist — and assembly still
succeeds (the concatenation tool permitting) whenever at least one
segment survives. -/
theorem c5_assembly_skips_invalid (segments : List SegmentInfo)
    (outputPath : String) (fs : Fs)
    (h : segments ≠ [])
    (hne : ∀ seg ∈ segments, seg.path ≠ concatFilePathOf segments) :
    (MergeSegments segments outputPath fs true).manifest
      = (segments.filter (fun seg => isValidSegment fs seg.path)).map
          (fun seg => manifestLine seg.path) ∧
    (segments.filter (fun seg => isValidSegment fs seg.path) ≠ [] →
      (MergeSegments segments outputPath fs true).result = Except.ok ()) := by
  match segments, h with
  | s0 :: rest, _ =>
    have hfilter :
        (s0 :: rest).filter (fun seg =>
            isValidSegment (fsCreate fs (concatFilePathOf (s0 :: rest))) seg.path)
          = (s0 :: rest).filter (fun seg => isValidSegment fs seg.path) := by
      apply List.filter_congr
      intro seg hseg
      rw [isValidSegment_create_ne fs _ _ (hne seg hseg)]
    rw [MergeSegments, if_neg (by simp)]
    rw [createConcatFile_eq, hfilter]
    by_cases hv : (s0 :: rest).filter (fun seg => isValidSegment fs seg.path) = []
    · rw [if_pos hv]
      exact ⟨by simp [hv], fun hc => absurd hv hc⟩
    · rw [if_neg hv]
      exact ⟨rfl, fun _ => rfl⟩

/-- C5 witness: of three snapshotted segments the second has been
deleted from disk; the clip is assembled from the remaining two and
assembly succeeds. -/
theorem c5_assembly_skips_invalid_witness :
    (MergeSegments
        [{ path := "/tmp/wr/segment_00000.webm", startTime := 0, number := 0 },
         { path := "/tmp/wr/segment_00001.webm", startTime := 5, number := 1 },
         { path := "/tmp/wr/segment_00002.webm", startTime := 10, number := 2 }]
        "/home/u/rec-clip-001.webm"
        [("/tmp/wr/segment_00000.webm", 2000), ("/tmp/wr/segment_00002.webm", 2048)]
        true).result = Except.ok () ∧
    (MergeSegments
        [{ path := "/tmp/wr/segment_00000.webm", startTime := 0, number := 0 },
         { path := "/tmp/wr/segment_00001.webm", startTime := 5, number := 1 },
         { path := "/tmp/wr/segment_00002.webm", startTime := 10, number := 2 }]
        "/home/u/rec-clip-001.webm"
        [("/tmp/wr/segment_00000.webm", 2000), ("/tmp/wr/segment_00002.webm", 2048)]
        true).manifest
      = [manifestLine "/tmp/wr/segment_00000.webm",
         manifestLine "/tmp/wr/segment_00002.webm"] :=
  ⟨(c5_assembly_skips_invalid
      [{ path := "/tmp/wr/segment_00000.webm", startTime := 0, number := 0 },
       { path := "/tmp/wr/segment_00001.webm", startTime := 5, number := 1 },
       { path := "/tmp/wr/segment_00002.webm", startTime := 10, number := 2 }]
      "/home/u/rec-clip-001.webm"
      [("/tmp/wr/segment_00000.webm", 2000), ("/tmp/wr/segment_00002.webm", 2048)]
      (by decide) (by decide)).2 (by decide),
   ((c5_assembly_skips_invalid
      [{ path := "/tmp/wr/segment_00000.webm", startTime := 0, number := 0 },
       { path := "/tmp/wr/segment_00001.webm", startTime := 5, number := 1 },
       { path := "/tmp/wr/segment_00002.webm", startTime := 10, number := 2 }]
      "/home/u/rec-clip-001.webm"
      [("/tmp/wr/segment_00000.webm", 2000), ("/tmp/wr/segment_00002.webm", 2048)]
      (by decide) (by decide)).1).trans (by decide)⟩

theorem fsExists_create_self (fs : Fs) (q : String) :
    fsExists (fsCreate fs q) q = true := by
  simp [fsExists, fsStat_create_self]

theorem fsExists_create_ne (fs : Fs) (q p : String) (h : p ≠ q) :
    fsExists (fsCreate fs q) p = fsExists fs p := by
  simp [fsExists, fsStat_create_ne fs q p h]

theorem fsExists_remove_self (fs : Fs) (q : String) :
    fsExists (fsRemove fs q) q = false := by
  simp [fsExists_remove]

/-- C6: `MergeSegments` returns an error, does not invoke the external
concatenation step, and leaves the output path's existence unchanged,
exactly when the input segment list is empty or no segment survives
validation. -/
theorem c6_merge_error_iff (segments : List SegmentInfo) (outputPath : String)
    (fs : Fs) (ffmpegOk : Bool)
    (hne : ∀ seg ∈ segments, seg.path ≠ concatFilePathOf segments)
    (hout : outputPath ≠ concatFilePathOf segments) :
    (((MergeSegments segments outputPath fs ffmpegOk).ffmpegRan = false ∧
       ∃ e, (MergeSegments segments outputPath fs ffmpegOk).result = Except.error e) ↔
      (segments = [] ∨
       segments.filter (fun seg => isValidSegment fs seg.path) = [])) ∧
    ((segments = [] ∨ segments.filter (fun seg => isValidSegment fs seg.path) = []) →
      fsExists (MergeSegments segments outputPath fs ffmpegOk).fsAfter outputPath
        = fsExists fs outputPath) := by
  cases segments with
  | nil =>
    constructor
    · simp [MergeSegments]
    · intro _
      simp [MergeSegments]
  | cons s0 rest =>
    have hfilter :
        (s0 :: rest).filter (fun seg =>
            isValidSegment (fsCreate fs (concatFilePathOf (s0 :: rest))) seg.path)
          = (s0 :: rest).filter (fun seg => isValidSegment fs seg.path) := by
      apply List.filter_congr
      intro seg hseg
      rw [isValidSegment_create_ne fs _ _ (hne seg hseg)]
    rw [MergeSegments, if_neg (by simp)]
    rw [createConcatFile_eq, hfilter]
    by_cases hv : (s0 :: rest).filter (fun seg => isValidSegment fs seg.path) = []
    · rw [if_pos hv]
      constructor
      · simp [hv]
      · intro _
        exact fsExists_create_ne fs _ _ hout
    · rw [if_neg hv]
      constructor
      · cases ffmpegOk <;> simp [hv]
      · intro hcase
        rcases hcase with h | h
        · exact absurd h (by simp)
        · exact absurd h hv

/-- C6 witness: an empty segment list makes assembly fail without
invoking the concatenation tool. -/
theorem c6_merge_error_iff_witness :
    (MergeSegments [] "/home/u/out.webm" [] true).ffmpegRan = false ∧
    ∃ e, (MergeSegments [] "/home/u/out.webm" [] true).result = Except.error e :=
  (c6_merge_error_iff [] "/home/u/out.webm" [] true (by decide) (by decide)).1.mpr
    (Or.inl rfl)

/-- C7 counterexample: a non-empty snapshot in which every segment fails
validation makes `createConcatFile` create the manifest and
`MergeSegments` return before registering the deferred removal, so the
manifest file still exists after assembly returns — against the claim
that it is always cleaned up. -/
theorem c7_counterexample :
    (([{ path := "/tmp/wr/a.webm", startTime := 0, number := 0 }] :
        List SegmentInfo) ≠ []) ∧
    fsExists
        (MergeSegments [{ path := "/tmp/wr/a.webm", startTime := 0, number := 0 }]
          "/out" [] true).fsAfter
        (concatFilePathOf [{ path := "/tmp/wr/a.webm", startTime := 0, number := 0 }])
      = true := by
  decide

/-- C7 (amended): for a non-empty input list, whenever at least one
segment survives validation the manifest file no longer exists after
assembly returns — on success and on concatenation failure alike — but
when zero segments survive, the created manifest file is left on disk. -/
theorem c7_manifest_cleanup (segments : List SegmentInfo) (outputPath : String)
    (fs : Fs) (ffmpegOk : Bool) (h : segments ≠ []) :
    ((MergeSegments segments outputPath fs ffmpegOk).manifest ≠ [] →
      fsExists (MergeSegments segments outputPath fs ffmpegOk).fsAfter
        (concatFilePathOf segments) = false) ∧
    ((MergeSegments segments outputPath fs ffmpegOk).manifest = [] →
      fsExists (MergeSegments segments outputPath fs ffmpegOk).fsAfter
        (concatFilePathOf segments) = true) := by
  match segments, h with
  | s0 :: rest, _ =>
    rw [MergeSegments, if_neg (by simp)]
    rw [createConcatFile_eq]
    by_cases hv :
        (s0 :: rest).filter (fun seg =>
          isValidSegment (fsCreate fs (concatFilePathOf (s0 :: rest))) seg.path) = []
    · rw [if_pos hv]
      refine ⟨fun hm => absurd (by simp [hv]) hm, fun _ => ?_⟩
      exact fsExists_create_self fs _
    · rw [if_neg hv]
      cases ffmpegOk
      · exact ⟨fun _ => fsExists_remove_self _ _,
          fun hm => absurd (List.map_eq_nil_iff.mp hm) hv⟩
      · exact ⟨fun _ => fsExists_remove_self _ _,
          fun hm => absurd (List.map_eq_nil_iff.mp hm) hv⟩

/-- C7 witness: with one valid segment the manifest is removed after
assembly; with one invalid segment the manifest file remains. -/
theorem c7_manifest_cleanup_witness :
    fsExists
        (MergeSegments [{ path := "/tmp/wr/b.webm", startTime := 0, number := 0 }]
          "/home/u/o.webm" [("/tmp/wr/b.webm", 2048)] true).fsAfter
        (concatFilePathOf [{ path := "/tmp/wr/b.webm", startTime := 0, number := 0 }])
      = false ∧
    fsExists
        (MergeSegments [{ path := "/tmp/wr/c.webm", startTime := 0, number := 0 }]
          "/home/u/o2.webm" [] true).fsAfter
        (concatFilePathOf [{ path := "/tmp/wr/c.webm", startTime := 0, number := 0 }])
      = true :=
  ⟨(c7_manifest_cleanup [{ path := "/tmp/wr/b.webm", startTime := 0, number := 0 }]
      "/home/u/o.webm" [("/tmp/wr/b.webm", 2048)] true (by decide)).1 (by decide),
   (c7_manifest_cleanup [{ path := "/tmp/wr/c.webm", startTime := 0, number := 0 }]
      "/home/u/o2.webm" [] true (by decide)).2 (by decide)⟩

theorem strData_inj (a b : String) (h : a.data = b.data) : a = b := by
  cases a
  cases b
  cases h
  rfl

theorem splitSlash_ne_nil (l : List Char) : splitSlash l ≠ [] := by
  cases l with
  | nil => simp [splitSlash]
  | cons c rest =>
    rw [splitSlash]
    split
    · simp
    · split <;> simp

theorem splitSlash_no_slash (n : List Char) (hn : '/' ∉ n) : splitSlash n = [n] := by
  induction n with
  | nil => rfl
  | cons c rest ih =>
    have hc : ¬ c = '/' := fun he => hn (he ▸ List.mem_cons_self c rest)
    rw [splitSlash, if_neg hc, ih (fun hm => hn (List.mem_cons_of_mem c hm))]

theorem splitSlash_append (d n : List Char) (hn : '/' ∉ n) :
    splitSlash (d ++ '/' :: n) = splitSlash d ++ [n] := by
  induction d with
  | nil =>
    simp [splitSlash, splitSlash_no_slash n hn]
  | cons c d' ih =>
    by_cases hc : c = '/'
    · subst hc
      simp [splitSlash, ih]
    · rcases List.exists_cons_of_ne_nil (splitSlash_ne_nil d') with ⟨h0, t0, hsp⟩
      rw [List.cons_append, splitSlash, if_neg hc, ih, hsp, List.cons_append,
        splitSlash, if_neg hc, hsp]
      rfl

theorem cleanComps_concat (rooted : Bool) (comps : List (List Char)) (n : List Char)
    (h0 : ¬ (n = [] ∨ n = ['.'])) (h2 : n ≠ ['.', '.']) :
    cleanComps rooted (comps ++ [n]) = n :: cleanComps rooted comps := by
  rw [cleanComps, cleanComps, List.foldl_append, List.foldl_cons, List.foldl_nil,
    cleanPush.eq_def, if_neg h0, if_neg h2]

theorem intercalate_concat (sep y : List Char) (a : List Char)
    (xs : List (List Char)) :
    List.intercalate sep ((a :: xs) ++ [y])
      = List.intercalate sep (a :: xs) ++ sep ++ y := by
  induction xs generalizing a with
  | nil => simp [List.intercalate, List.intersperse]
  | cons b t ih =>
    have h1 : List.intercalate sep (a :: b :: (t ++ [y]))
        = a ++ sep ++ List.intercalate sep (b :: (t ++ [y])) := by
      simp [List.intercalate, List.intersperse, List.append_assoc]
    have h2 : List.intercalate sep (a :: b :: t)
        = a ++ sep ++ List.intercalate sep (b :: t) := by
      simp [List.intercalate, List.intersperse, List.append_assoc]
    calc List.intercalate sep ((a :: b :: t) ++ [y])
        = a ++ sep ++ List.intercalate sep ((b :: t) ++ [y]) := by
          simpa using h1
      _ = a ++ sep ++ (List.intercalate sep (b :: t) ++ sep ++ y) := by rw [ih]
      _ = List.intercalate sep (a :: b :: t) ++ sep ++ y := by
          rw [h2]
          simp [List.append_assoc]

theorem intercalate_single (sep y : List Char) : List.intercalate sep [y] = y := by
  simp [List.intercalate, List.intersperse]

theorem intercalate_concat_ne_nil (S : List (List Char)) (n : List Char)
    (hn : n ≠ []) : List.intercalate ['/'] (S ++ [n]) ≠ [] := by
  cases S with
  | nil => simpa [intercalate_single] using hn
  | cons a xs =>
    rw [intercalate_concat]
    simpa using hn

theorem filepathClean_last (d : String) (n : List Char)
    (hd : d ≠ "") (hn : '/' ∉ n)
    (h0 : ¬ (n = [] ∨ n = ['.'])) (h2 : n ≠ ['.', '.']) :
    filepathClean (d ++ String.mk ('/' :: n)) = String.mk (cleanDirPrefix d ++ n) := by
  have hnnil : n ≠ [] := fun h => h0 (Or.inl h)
  have hdd : d.data ≠ [] := fun h => hd (String.ext h)
  have hdata : (d ++ String.mk ('/' :: n)).data = d.data ++ '/' :: n :=
    String.data_append d (String.mk ('/' :: n))
  have hne : d ++ String.mk ('/' :: n) ≠ "" := by
    intro he
    have h' := congrArg String.data he
    rw [hdata] at h'
    cases hd' : d.data with
    | nil => exact hdd hd'
    | cons c cs' => rw [hd'] at h'; simp at h'
  have hhead : (d.data ++ '/' :: n).head? = d.data.head? := by
    rcases List.exists_cons_of_ne_nil hdd with ⟨c, cs', hdc⟩
    rw [hdc]
    rfl
  simp only [filepathClean, cleanDirPrefix, if_neg hne, hdata, hhead,
    splitSlash_append d.data n hn, cleanComps_concat _ _ n h0 h2,
    List.reverse_cons]
  apply strData_inj
  by_cases hr : d.data.head? = some '/' <;>
    by_cases hS : (cleanComps (d.data.head? = some '/' : Bool)
        (splitSlash d.data)).reverse = []
  · rw [if_pos hr, hS]
    simp [hr, hS, intercalate_single, String.data_append]
  · rw [if_pos hr]
    rcases List.exists_cons_of_ne_nil hS with ⟨a, xs, hSx⟩
    rw [hSx, intercalate_concat]
    simp [hr, hS, hSx, String.data_append, List.append_assoc]
  · rw [if_neg hr, hS]
    rw [if_neg (show String.mk (List.intercalate ['/'] ([] ++ [n])) ≠ "" from
      fun he => intercalate_concat_ne_nil [] n hnnil (congrArg String.data he))]
    simp [hr, hS, intercalate_single]
  · rw [if_neg hr]
    rw [if_neg (show String.mk (List.intercalate ['/']
        ((cleanComps (d.data.head? = some '/' : Bool) (splitSlash d.data)).reverse
          ++ [n])) ≠ "" from
      fun he => intercalate_concat_ne_nil _ n hnnil (congrArg String.data he))]
    rcases List.exists_cons_of_ne_nil hS with ⟨a, xs, hSx⟩
    rw [hSx, intercalate_concat]
    simp [hr, hS, hSx, String.data_append, List.append_assoc]

theorem filepathClean_ne_empty (s : String) : filepathClean s ≠ "" := by
  simp only [filepathClean]
  split
  · decide
  · split
    · intro h
      have h' := congrArg String.data h
      rw [String.data_append] at h'
      simp at h'
    · split
      · decide
      · rename_i hb
        exact hb

theorem filepathDir_ne_empty (p : String) : filepathDir p ≠ "" :=
  filepathClean_ne_empty _

theorem mem_trimSuffixGo (s t : String) (c : Char)
    (h : c ∈ (trimSuffixGo s t).data) : c ∈ s.data := by
  rw [trimSuffixGo] at h
  split at h
  · exact List.take_subset _ _ h
  · exact h

/-- C8: every accepted clip trigger writes to
`Join(Dir(base), base-name + "-clip-" + counter + "." + container)`, and
(for a base path whose base name and a container that contain no path
separator) the paths for counters 1 and 2 are always distinct. -/
theorem c8_clip_paths_distinct (basePath container : String)
    (hb : '/' ∉ (filepathBase basePath).data)
    (hc : '/' ∉ container.data) :
    (∀ counter : Nat,
      generateClipPath basePath container counter
        = filepathJoin (filepathDir basePath)
            (trimSuffixGo (filepathBase basePath) (filepathExt basePath)
              ++ "-clip-" ++ fmtPad3 counter ++ "." ++ container)) ∧
    generateClipPath basePath container 1 ≠ generateClipPath basePath container 2 := by
  refine ⟨fun _ => rfl, ?_⟩
  have hb' : '/' ∉ (trimSuffixGo (filepathBase basePath)
      (filepathExt basePath)).data :=
    fun hmem => hb (mem_trimSuffixGo _ _ _ hmem)
  set base := trimSuffixGo (filepathBase basePath) (filepathExt basePath)
  have hpad1 : fmtPad3 1 = "001" := by decide
  have hpad2 : fmtPad3 2 = "002" := by decide
  have hdata1 : (base ++ "-clip-" ++ fmtPad3 1 ++ "." ++ container).data
      = base.data ++
          ('-' :: 'c' :: 'l' :: 'i' :: 'p' :: '-' :: '0' :: '0' :: '1' :: '.'
            :: container.data) := by
    rw [hpad1]
    simp only [String.data_append]
    simp [List.append_assoc]
  have hdata2 : (base ++ "-clip-" ++ fmtPad3 2 ++ "." ++ container).data
      = base.data ++
          ('-' :: 'c' :: 'l' :: 'i' :: 'p' :: '-' :: '0' :: '0' :: '2' :: '.'
            :: container.data) := by
    rw [hpad2]
    simp only [String.data_append]
    simp [List.append_assoc]
  have hmem1 : '/' ∉ (base ++ "-clip-" ++ fmtPad3 1 ++ "." ++ container).data := by
    rw [hdata1]
    simp [hb', hc]
  have hmem2 : '/' ∉ (base ++ "-clip-" ++ fmtPad3 2 ++ "." ++ container).data := by
    rw [hdata2]
    simp [hb', hc]
  have hlen : ∀ (s : String), s.data
      = base.data ++
          ('-' :: 'c' :: 'l' :: 'i' :: 'p' :: '-' :: '0' :: '0' :: '1' :: '.'
            :: container.data) ∨
      s.data = base.data ++
          ('-' :: 'c' :: 'l' :: 'i' :: 'p' :: '-' :: '0' :: '0' :: '2' :: '.'
            :: container.data) →
      ¬ (s.data = [] ∨ s.data = ['.']) ∧ s.data ≠ ['.', '.'] := by
    intro s hs
    constructor
    · intro hcase
      rcases hcase with h | h <;> rcases hs with h' | h' <;>
        · rw [h] at h'
          have := congrArg List.length h'
          simp at this
          omega
    · intro h
      rcases hs with h' | h' <;>
        · rw [h] at h'
          have := congrArg List.length h'
          simp at this
          omega
  have hjoin : ∀ (x : String),
      filepathJoin (filepathDir basePath) x
        = filepathClean (filepathDir basePath ++ String.mk ('/' :: x.data)) := by
    intro x
    rw [filepathJoin, if_pos (filepathDir_ne_empty basePath)]
    congr 1
    apply strData_inj
    rw [String.data_append, String.data_append, String.data_append]
    rw [show ("/" : String).data = ['/'] from rfl]
    simp
  intro heq
  rw [show generateClipPath basePath container 1
      = filepathJoin (filepathDir basePath)
          (base ++ "-clip-" ++ fmtPad3 1 ++ "." ++ container) from rfl,
    show generateClipPath basePath container 2
      = filepathJoin (filepathDir basePath)
          (base ++ "-clip-" ++ fmtPad3 2 ++ "." ++ container) from rfl,
    hjoin, hjoin,
    filepathClean_last _ _ (filepathDir_ne_empty basePath) hmem1
      ((hlen _ (Or.inl hdata1)).1) ((hlen _ (Or.inl hdata1)).2),
    filepathClean_last _ _ (filepathDir_ne_empty basePath) hmem2
      ((hlen _ (Or.inr hdata2)).1) ((hlen _ (Or.inr hdata2)).2)] at heq
  have hlist := congrArg String.data heq
  simp only [show ∀ l : List Char, (String.mk l).data = l from fun _ => rfl] at hlist
  have hcancel := List.append_cancel_left hlist
  rw [hdata1, hdata2] at hcancel
  have hcancel2 := List.append_cancel_left hcancel
  simp at hcancel2

/-- C8 witness: with the default-style base path and the webm container,
the clip paths for counters 1 and 2 differ. -/
theorem c8_clip_paths_distinct_witness :
    generateClipPath "/home/u/rec.webm" "webm" 1
      ≠ generateClipPath "/home/u/rec.webm" "webm" 2 :=
  (c8_clip_paths_distinct "/home/u/rec.webm" "webm" (by decide) (by decide)).2

theorem append_ne_of_take3 (p s t : String) (h3 : 3 ≤ p.data.length)
    (hne : p.data.take 3 ≠ t.data.take 3) : p ++ s ≠ t := by
  intro he
  apply hne
  rw [← he, String.data_append, List.take_append_of_le_length h3]

theorem token_ne_append (p s t : String) (h3 : 3 ≤ p.data.length)
    (hall : ∀ u ∈ audioPipelineTokens, ¬ p.data.take 3 = u.data.take 3)
    (ht : t ∈ audioPipelineTokens) (he : t = p ++ s) : False :=
  (append_ne_of_take3 p s t h3 (hall t ht)) he.symm

theorem tokens_not_mem_enc (c : String) (sp q : Int) (l : List String)
    (henc : buildEncoderArgs c sp q = Except.ok l)
    (t : String) (ht : t ∈ audioPipelineTokens) : t ∉ l := by
  rw [buildEncoderArgs] at henc
  by_cases h8 : c = "vp8"
  · rw [if_pos h8] at henc
    by_cases hq : 0 < q
    · rw [if_pos hq] at henc
      injection henc with h
      subst h
      intro hmem
      simp at hmem
      rcases hmem with rfl | rfl | rfl | rfl
      · exact absurd ht (by decide)
      · exact absurd ht (by decide)
      · exact token_ne_append "deadline=" _ _ (by decide) (by decide) ht rfl
      · exact token_ne_append "target-bitrate=" _ _ (by decide) (by decide) ht rfl
    · rw [if_neg hq] at henc
      injection henc with h
      subst h
      intro hmem
      simp at hmem
      rcases hmem with rfl | rfl | rfl
      · exact absurd ht (by decide)
      · exact absurd ht (by decide)
      · exact token_ne_append "deadline=" _ _ (by decide) (by decide) ht rfl
  · rw [if_neg h8] at henc
    by_cases h9 : c = "vp9"
    · rw [if_pos h9] at henc
      by_cases hq : 0 < q
      · rw [if_pos hq] at henc
        injection henc with h
        subst h
        intro hmem
        simp at hmem
        rcases hmem with rfl | rfl | rfl | rfl
        · exact absurd ht (by decide)
        · exact absurd ht (by decide)
        · exact token_ne_append "deadline=" _ _ (by decide) (by decide) ht rfl
        · exact token_ne_append "target-bitrate=" _ _ (by decide) (by decide) ht rfl
      · rw [if_neg hq] at henc
        injection henc with h
        subst h
        intro hmem
        simp at hmem
        rcases hmem with rfl | rfl | rfl
        · exact absurd ht (by decide)
        · exact absurd ht (by decide)
        · exact token_ne_append "deadline=" _ _ (by decide) (by decide) ht rfl
    · rw [if_neg h9] at henc
      by_cases hx : c = "h264" ∨ c = "x264"
      · rw [if_pos hx] at henc
        by_cases hq : 0 < q
        · rw [if_pos hq] at henc
          by_cases hql : q < 1000
          · rw [if_pos hql] at henc
            cases henc
          · rw [if_neg hql] at henc
            injection henc with h
            subst h
            intro hmem
            simp at hmem
            rcases hmem with rfl | rfl | rfl | rfl
            · exact absurd ht (by decide)
            · exact absurd ht (by decide)
            · exact token_ne_append "speed-preset=" _ _ (by decide) (by decide) ht rfl
            · exact token_ne_append "bitrate=" _ _ (by decide) (by decide) ht rfl
        · rw [if_neg hq] at henc
          injection henc with h
          subst h
          intro hmem
          simp at hmem
          rcases hmem with rfl | rfl | rfl
          · exact absurd ht (by decide)
          · exact absurd ht (by decide)
          · exact token_ne_append "speed-preset=" _ _ (by decide) (by decide) ht rfl
      · rw [if_neg hx] at henc
        cases henc

/-- C10: with clip mode enabled the audio pipeline is empty, and every
successfully built GStreamer argument list contains none of the
audio-specific pipeline tokens, whatever the audio flags say. -/
theorem c10_clip_mode_no_audio (nodeID : Nat) (opts : CaptureOptions)
    (args : List String) (hclip : opts.ClipMode = true)
    (hok : BuildGStreamerArgs nodeID opts = Except.ok args) :
    buildAudioPipeline opts = [] ∧ ∀ t ∈ audioPipelineTokens, t ∉ args := by
  have haudio : buildAudioPipeline opts = [] := by
    rw [buildAudioPipeline, if_pos (Or.inl hclip)]
  have hsink : ∀ (X : List String), ∃ tail,
      appendOutputSink X opts "" = X ++ ["!"] ++ tail ∧
      ∀ t ∈ audioPipelineTokens, t ∉ tail := by
    intro X
    cases hmux : getMuxerConfig opts.Container with
    | error e =>
      refine ⟨["filesink", "location=" ++ opts.OutputPath], ?_, ?_⟩
      · simp [appendOutputSink, hclip, hmux]
      · intro t ht hmem
        simp at hmem
        rcases hmem with rfl | rfl
        · exact absurd ht (by decide)
        · exact token_ne_append "location=" _ _ (by decide) (by decide) ht rfl
    | ok config =>
      refine ⟨["splitmuxsink", "muxer=" ++ config.name,
          "location=" ++ filepathJoin opts.TempDir ("segment_%05d." ++ opts.Container),
          "max-size-time=" ++ toString (opts.SegmentDuration * 1000000000)], ?_, ?_⟩
      · simp [appendOutputSink, hclip, hmux]
      · intro t ht hmem
        simp at hmem
        rcases hmem with rfl | rfl | rfl | rfl
        · exact absurd ht (by decide)
        · exact token_ne_append "muxer=" _ _ (by decide) (by decide) ht rfl
        · exact token_ne_append "location=" _ _ (by decide) (by decide) ht rfl
        · exact token_ne_append "max-size-time=" _ _ (by decide) (by decide) ht rfl
  refine ⟨haudio, ?_⟩
  rw [BuildGStreamerArgs] at hok
  by_cases hz : nodeID = 0
  · rw [if_pos hz] at hok
    cases hok
  · rw [if_neg hz] at hok
    cases henc : buildEncoderArgs opts.Codec opts.EncoderSpeed opts.Quality with
    | error e =>
      rw [henc] at hok
      cases hok
    | ok ea =>
      rw [henc] at hok
      injection hok with h
      rw [appendAudioAndOutput, haudio] at h
      simp only [List.length_nil, if_pos rfl] at h
      obtain ⟨tail, htail, htailtok⟩ :=
        hsink (["-e"] ++
          ["pipewiresrc", "path=" ++ toString nodeID, "!", "videoconvert", "!", "queue"]
          ++ ea)
      rw [htail] at h
      subst h
      intro t ht hmem
      rcases List.mem_append.mp hmem with h1 | htl
      · rcases List.mem_append.mp h1 with h2 | hbang
        · rcases List.mem_append.mp h2 with h3 | hea
          · fin_cases h3 <;>
              first
                | exact absurd ht (by decide)
                | exact token_ne_append "path=" _ _ (by decide) (by decide) ht rfl
          · exact tokens_not_mem_enc _ _ _ _ henc t ht hea
        · simp at hbang
          subst hbang
          exact absurd ht (by decide)
      · exact htailtok t ht htl

/-- C10 witness: a concrete clip-mode configuration with both audio
flags on still builds an argument list free of audio elements. -/
theorem c10_clip_mode_no_audio_witness :
    buildAudioPipeline
        { OutputPath := "/home/u/rec.webm", Codec := "vp9", Container := "webm",
          EncoderSpeed := 1, Quality := 0, AudioMonitor := true, AudioMic := true,
          BufferDuration := 30, SegmentDuration := 5, ClipMode := true,
          TempDir := "/tmp/wr", Notifications := true } = [] ∧
    "pulsesrc" ∉
      ["-e", "pipewiresrc", "path=42", "!", "videoconvert", "!", "queue",
       "!", "vp9enc", "deadline=1", "!",
       "splitmuxsink", "muxer=webmmux", "location=/tmp/wr/segment_%05d.webm",
       "max-size-time=5000000000"] :=
  ⟨(c10_clip_mode_no_audio 42
      { OutputPath := "/home/u/rec.webm", Codec := "vp9", Container := "webm",
        EncoderSpeed := 1, Quality := 0, AudioMonitor := true, AudioMic := true,
        BufferDuration := 30, SegmentDuration := 5, ClipMode := true,
        TempDir := "/tmp/wr", Notifications := true }
      ["-e", "pipewiresrc", "path=42", "!", "videoconvert", "!", "queue",
       "!", "vp9enc", "deadline=1", "!",
       "splitmuxsink", "muxer=webmmux", "location=/tmp/wr/segment_%05d.webm",
       "max-size-time=5000000000"] rfl (by decide)).1,
   (c10_clip_mode_no_audio 42
      { OutputPath := "/home/u/rec.webm", Codec := "vp9", Container := "webm",
        EncoderSpeed := 1, Quality := 0, AudioMonitor := true, AudioMic := true,
        BufferDuration := 30, SegmentDuration := 5, ClipMode := true,
        TempDir := "/tmp/wr", Notifications := true }
      ["-e", "pipewiresrc", "path=42", "!", "videoconvert", "!", "queue",
       "!", "vp9enc", "deadline=1", "!",
       "splitmuxsink", "muxer=webmmux", "location=/tmp/wr/segment_%05d.webm",
       "max-size-time=5000000000"] rfl (by decide)).2 "pulsesrc" (by decide)⟩

end WaylandRecorder
